import Mathlib

/-!
Shallow embedding of the color subsystem of `extrajs-types`:
the `Color` class (`src/class/Color.class.ts`), its scalar dependencies
`Percentage` (`src/class/Percentage.class.ts`) and `Angle`
(`src/class/Angle.class.ts`), and the `Fraction` class
(`src/class/Fraction.class.ts`).

JavaScript numbers are modelled as exact rationals (`ℚ`); every arithmetic
operation appearing in the embedded code paths is rational (the only
irrational constant in the source, `Math.PI`, enters only through angle-unit
conversion and is modelled by the exact value of the IEEE-754 double
`Math.PI`).  JavaScript exceptions are modelled by `Option`: a method that
throws returns `none`.
-/

namespace ExtraTypes

/-- Floor-style modulo `((n % d) + d) % d` as computed by the external helper
`xjs.Math.mod` (and by the JS `%` operator on non-negative operands). -/
def jsMod (n d : ℚ) : ℚ := n - d * ⌊n / d⌋

/-- Weighted interpolation `x·(1-w) + y·w` as computed by the external helper
`xjs.Math.average(x, y, w)` (the weight favors the second argument). -/
def jsAverage (x y w : ℚ) : ℚ := x * (1 - w) + y * w

/-- The machine epsilon `Number.EPSILON = 2⁻⁵²` used as the default tolerance
of the external helper `xjs.Math.approx`. -/
def jsEpsilon : ℚ := 1 / 2 ^ 52

/-- Approximate equality `Math.abs(x - y) < Number.EPSILON`
(`xjs.Math.approx` with its default epsilon). -/
def jsApprox (x y : ℚ) : Bool := |x - y| < jsEpsilon

/-- The rounding `Math.round(x) = ⌊x + 1/2⌋` (JS rounds half-way cases up). -/
def jsRound (x : ℚ) : ℤ := ⌊x + 1 / 2⌋

/-- Lower-casing of a single character, as `String.prototype.toLowerCase`
acts on the ASCII strings occurring in the color tables. -/
def jsLowerChar (c : Char) : Char :=
  if 'A' ≤ c ∧ c ≤ 'Z' then Char.ofNat (c.toNat + 32) else c

/-- The string lower-casing `str.toLowerCase()` (ASCII model). -/
def jsToLowerCase (s : String) : String := ⟨s.data.map jsLowerChar⟩

/-- Numeric value of a list of decimal digit characters. -/
def digitsVal (l : List Char) : ℕ :=
  l.foldl (fun acc c => 10 * acc + (c.toNat - 48)) 0

/-- Value of the decimal-number grammar `-?(\d+(\.\d+)?|\.\d+)` — the shape of
the helper regexp `xjs_Number_REGEXP` shared by `Percentage.REGEXP` and
`Angle.REGEXP`.  Returns `none` when the character list does not match. -/
def decimalCore : List Char → Option ℚ
  | [] => none
  | l =>
    let sign : ℚ := if l.headD ' ' = '-' then -1 else 1
    let body := if l.headD ' ' = '-' then l.tail else l
    let intPart := body.takeWhile (·.isDigit)
    let rest := body.dropWhile (·.isDigit)
    match rest with
    | [] => if intPart = [] then none else some (sign * digitsVal intPart)
    | '.' :: frac =>
      if frac ≠ [] ∧ frac.all (·.isDigit) then
        some (sign * ((digitsVal intPart : ℚ) +
          (digitsVal frac : ℚ) / 10 ^ frac.length))
      else none
    | _ => none

/-- The numeric coercion `+str` (JS `ToNumber`) restricted to the plain
decimal strings produced by the color grammar: an optional sign followed by
a decimal number.  `none` models `NaN`; the empty string coerces to `0`. -/
def jsToNumber (s : String) : Option ℚ :=
  if s = "" then some 0
  else if s.data.headD ' ' = '+' then decimalCore s.data.tail
  else decimalCore s.data

/-- The split `str.split(sep)` of JS for a single-character separator. -/
def jsSplit (sep : Char) : List Char → List (List Char)
  | [] => [[]]
  | c :: rest =>
    let r := jsSplit sep rest
    if c = sep then [] :: r
    else (c :: r.headD []) :: r.tail

/-- Whitespace as recognized by `String.prototype.trim` (the characters
occurring in the color grammar). -/
def jsIsSpace (c : Char) : Bool := c = ' ' ∨ c = '\t' ∨ c = '\n' ∨ c = '\r'

/-- The trim `str.trim()` of JS. -/
def jsTrim (l : List Char) : List Char :=
  ((l.dropWhile jsIsSpace).reverse.dropWhile jsIsSpace).reverse

end ExtraTypes

namespace ExtraTypes

/-! ### Percentage (`src/class/Percentage.class.ts`)

The class extends `Number`; a `Percentage` object is modelled by its
numeric value.  The constructor asserts the value is non-negative and
finite (`xjs.Number.assertType(p, 'non-negative')`,
`xjs.Number.assertType(p, 'finite')`); finiteness is automatic in `ℚ`. -/

namespace Percentage

/-- The `Percentage` constructor: throws unless the value is non-negative
(and finite, which holds for every rational). -/
def mk? (p : ℚ) : Option ℚ := if 0 ≤ p then some p else none

/-- The getter `conjugate`: throws when the value lies outside `[0,1]`,
otherwise returns `1 - value`. -/
def conjugate? (v : ℚ) : Option ℚ :=
  if v < 0 ∨ 1 < v then none else some (1 - v)

/-- The method `times`: `new Percentage(this.valueOf() * multiplier.valueOf())`. -/
def times? (a b : ℚ) : Option ℚ := mk? (a * b)

/-- The method `clamp()` with its default bounds `0` and `1`:
`Percentage.min(Percentage.max(0, this), 1)`. -/
def clamp (v : ℚ) : ℚ := min (max 0 v) 1

/-- The method `of`: the argument scaled by this percentage. -/
def of (v x : ℚ) : ℚ := v * x

/-- The static method `fromString`: requires the string to match
`Percentage.REGEXP` (a decimal number immediately followed by `%`), then
constructs `new Percentage(numeric_part / 100)` — whose constructor rejects
negative values. -/
def fromString? (s : String) : Option ℚ :=
  match s.data.getLast? with
  | some '%' => (decimalCore s.data.dropLast).bind fun n => mk? (n / 100)
  | _ => none

end Percentage

/-! ### Fraction (`src/class/Fraction.class.ts`)

Also a `Number` subclass, modelled by its value. -/

namespace Fraction

/-- The `Fraction` constructor: asserts finiteness and throws a range error
when the value lies outside `[0,1]`. -/
def mk? (f : ℚ) : Option ℚ := if f < 0 ∨ 1 < f then none else some f

/-- The method `plus`: returns `this` unchanged on a zero addend, throws
when the exact sum leaves `[0,1]`, and otherwise constructs the sum. -/
def plus? (v x : ℚ) : Option ℚ :=
  if x = 0 then some v
  else if v + x < 0 then none
  else if 1 < v + x then none
  else mk? (v + x)

/-- The method `plusClamp`: tries `plus` and returns `Fraction.FULL` (the
value `1`) if *any* error occurs. -/
def plusClamp (v x : ℚ) : ℚ := (plus? v x).getD 1

/-- The method `minus`: `this.plus(-subtrahend)`. -/
def minus? (v x : ℚ) : Option ℚ := plus? v (-x)

/-- The method `minusClamp`: tries `minus` and returns `Fraction.ZERO` (the
value `0`) if *any* error occurs. -/
def minusClamp (v x : ℚ) : ℚ := (minus? v x).getD 0

end Fraction

/-! ### Angle (`src/class/Angle.class.ts`) -/

/-- The `AngleUnit` enum. -/
inductive AngleUnit where
  | DEG
  | GRAD
  | RAD
  | TURN
deriving DecidableEq, Repr

/-- The exact value of the IEEE-754 double `Math.PI` used by the source. -/
def jsPI : ℚ := 884279719003555 / 281474976710656

/-- The dictionary `Angle.CONVERSION`: the number of units in one full
circle. -/
def AngleUnit.conversionRate : AngleUnit → ℚ
  | .DEG => 360
  | .GRAD => 400
  | .RAD => 2 * jsPI
  | .TURN => 1

/-- An `Angle` object: a `Number` subclass holding its measure in turns. -/
structure Angle where
  val : ℚ
deriving DecidableEq, Repr

namespace Angle

/-- The `Angle` constructor: asserts finiteness and stores
`theta / Angle.CONVERSION[unit]` — with no normalization. -/
def make (theta : ℚ) (unit : AngleUnit := .TURN) : Angle :=
  ⟨theta / unit.conversionRate⟩

/-- The static constant `Angle.ZERO`. -/
def ZERO : Angle := make 0

/-- The method `equals`: approximate comparison via `xjs.Math.approx`. -/
def equalsB (a b : Angle) : Bool := jsApprox a.val b.val

/-- The getter `canon`: `new Angle(xjs.Math.mod(this.valueOf(), 1))`. -/
def canon (a : Angle) : Angle := ⟨jsMod a.val 1⟩

/-- The method `plus`: returns `this` when the addend `equals` `Angle.ZERO`,
otherwise `new Angle(this.valueOf() + addend.valueOf())` — the constructor
does not re-normalize. -/
def plus (a b : Angle) : Angle :=
  if equalsB b ZERO then a else ⟨a.val + b.val⟩

/-- The method `minus`: `this.plus(-subtrahend)` (the numeric negation is
re-wrapped by the single-argument, turn-unit constructor). -/
def minus (a b : Angle) : Angle := plus a ⟨-b.val⟩

/-- The method `scale`: `new Angle(this.valueOf() * scalar)`. -/
def scale (a : Angle) (scalar : ℚ) : Angle := ⟨a.val * scalar⟩

/-- The method `convert`: `this.valueOf() * Angle.CONVERSION[unit]`. -/
def convert (a : Angle) (unit : AngleUnit) : ℚ := a.val * unit.conversionRate

/-- The static method `Angle.fromString`: requires a decimal number
immediately followed by one of the unit suffixes `deg`, `grad`, `rad`,
`turn` (the order in which `Angle.REGEXP` lists the alternatives), and
divides by the unit's conversion rate. -/
def fromString? (s : String) : Option Angle :=
  let l := s.data
  let numPart := l.takeWhile (fun c => ¬ c.isAlpha)
  let suffix := l.dropWhile (fun c => ¬ c.isAlpha)
  let rate? : Option ℚ :=
    if suffix = ['d', 'e', 'g'] then some (AngleUnit.conversionRate .DEG)
    else if suffix = ['g', 'r', 'a', 'd'] then some (AngleUnit.conversionRate .GRAD)
    else if suffix = ['r', 'a', 'd'] then some (AngleUnit.conversionRate .RAD)
    else if suffix = ['t', 'u', 'r', 'n'] then some (AngleUnit.conversionRate .TURN)
    else none
  match rate?, decimalCore numPart with
  | some rate, some n => some ⟨n / rate⟩
  | _, _ => none

end Angle

end ExtraTypes

namespace ExtraTypes

/-! ### Color (`src/class/Color.class.ts`)

A `Color` holds four `Percentage` channels; each is modelled by its
rational value. -/

/-- A `Color` object: the four stored channels `_RED`, `_GREEN`, `_BLUE`,
`_ALPHA` (each the value of a `Percentage`). -/
structure Color where
  red : ℚ
  green : ℚ
  blue : ℚ
  alpha : ℚ
deriving DecidableEq, Repr

namespace Color

/-- The `Color` constructor:
`[red, green, blue].map((c) => new Percentage(c).clamp())` and
`new Percentage(alpha).clamp()` — the `Percentage` constructor throws on a
negative argument, and `clamp()` clamps into `[0,1]`. -/
def mk? (red green blue alpha : ℚ) : Option Color := do
  let r ← Percentage.mk? red
  let g ← Percentage.mk? green
  let b ← Percentage.mk? blue
  let a ← Percentage.mk? alpha
  pure ⟨Percentage.clamp r, Percentage.clamp g, Percentage.clamp b, Percentage.clamp a⟩

/-- The zero-argument constructor `new Color()`: alpha defaults to `0`,
red, green and blue to `0`. -/
def default : Color := ⟨0, 0, 0, 0⟩

/-- The cached field `_MAX = Math.max(red, green, blue)`. -/
def maxC (c : Color) : ℚ := max c.red (max c.green c.blue)

/-- The cached field `_MIN = Math.min(red, green, blue)`. -/
def minC (c : Color) : ℚ := min c.red (min c.green c.blue)

/-- The cached field `_CHROMA = _MAX - _MIN`. -/
def chroma (c : Color) : ℚ := c.maxC - c.minC

/-- The getter `hsvHue`: `0` when the chroma is `0`; otherwise the formula
selected by `[..][rgb_norm.indexOf(this._MAX)]` — `indexOf` returns the
first index whose entry equals `_MAX`, so red is tested first, then green,
then blue.  The `% 6` in the red formula is the JS remainder, which on its
non-negative operand `(g-b)/chroma + 6 ∈ [5,7]` agrees with the floor
modulo. -/
def hsvHue (c : Color) : ℚ :=
  if c.chroma = 0 then 0
  else if c.red = c.maxC then jsMod ((c.green - c.blue) / c.chroma + 6) 6 * 60
  else if c.green = c.maxC then ((c.blue - c.red) / c.chroma + 2) * 60
  else ((c.red - c.green) / c.chroma + 4) * 60

/-- The static method `Color._compoundOpacity` at two arguments:
`alphas.map((a) => a.conjugate).reduce((a,b) => a.times(b)).conjugate`. -/
def compoundOpacity2? (a1 a2 : ℚ) : Option ℚ := do
  let c1 ← Percentage.conjugate? a1
  let c2 ← Percentage.conjugate? a2
  let p ← Percentage.times? c1 c2
  Percentage.conjugate? p

/-- The instance method `mix(color, weight)`: each RGB channel is
`new Percentage(xjs.Math.average(this.ch, color.ch, weight))`, the alpha is
`Color._compoundOpacity(this.alpha, color.alpha)`, and the four values are
passed to the `Color` constructor. -/
def mix? (c1 c2 : Color) (weight : ℚ) : Option Color := do
  let r ← Percentage.mk? (jsAverage c1.red c2.red weight)
  let g ← Percentage.mk? (jsAverage c1.green c2.green weight)
  let b ← Percentage.mk? (jsAverage c1.blue c2.blue weight)
  let a ← compoundOpacity2? c1.alpha c2.alpha
  mk? r g b a

/-- The six-sector dispatch shared by `fromHSV` and `fromHSL`: the chain of
`if (0 <= hue && hue < 60) { rgb = [c, x, 0] } …` statements over the
initial assignment `let rgb = [c, x, 0]`. -/
def hueSector (h c x : ℚ) : ℚ × ℚ × ℚ :=
  if 0 ≤ h ∧ h < 60 then (c, x, 0)
  else if 60 ≤ h ∧ h < 120 then (x, c, 0)
  else if 120 ≤ h ∧ h < 180 then (0, c, x)
  else if 180 ≤ h ∧ h < 240 then (0, x, c)
  else if 240 ≤ h ∧ h < 300 then (x, 0, c)
  else if 300 ≤ h ∧ h < 360 then (c, 0, x)
  else (c, x, 0)

/-- The channel triple `rgb.map((c) => c + m)` computed by the body of
`Color.fromHSV`: `hue` is reduced by `xjs.Math.mod(hue, 360)`, then
`c = s·v`, `x = c·(1 - |hue/60 % 2 - 1|)`, `m = v - c` — the `% 2` being
the JS remainder on a non-negative operand, i.e. the floor modulo. -/
def hsvChannels (hue s v : ℚ) : ℚ × ℚ × ℚ :=
  let h := jsMod hue 360
  let c := s * v
  let x := c * (1 - |jsMod (h / 60) 2 - 1|)
  let m := v - c
  ((hueSector h c x).1 + m, (hueSector h c x).2.1 + m, (hueSector h c x).2.2 + m)

/-- The channel triple computed by the body of `Color.fromHSL`: as
`hsvChannels` with `c = s·(1 - |2l - 1|)` and `m = l - c/2`. -/
def hslChannels (hue s l : ℚ) : ℚ × ℚ × ℚ :=
  let h := jsMod hue 360
  let c := s * (1 - |2 * l - 1|)
  let x := c * (1 - |jsMod (h / 60) 2 - 1|)
  let m := l - c / 2
  ((hueSector h c x).1 + m, (hueSector h c x).2.1 + m, (hueSector h c x).2.2 + m)

/-- The static method `Color.fromHSV(hue, sat, val, alpha)`: the arguments
are coerced through the `Percentage` constructor (throwing on negatives),
and the sector channels `component + m` are passed through
`new Percentage(..)` to the `Color` constructor. -/
def fromHSV? (hue sat val alpha : ℚ) : Option Color := do
  let s ← Percentage.mk? sat
  let v ← Percentage.mk? val
  let a ← Percentage.mk? alpha
  let r ← Percentage.mk? (hsvChannels hue s v).1
  let g ← Percentage.mk? (hsvChannels hue s v).2.1
  let b ← Percentage.mk? (hsvChannels hue s v).2.2
  mk? r g b a

/-- The static method `Color.fromHSL(hue, sat, lum, alpha)`: as `fromHSV`
with the `fromHSL` channel formulas. -/
def fromHSL? (hue sat lum alpha : ℚ) : Option Color := do
  let s ← Percentage.mk? sat
  let l ← Percentage.mk? lum
  let a ← Percentage.mk? alpha
  let r ← Percentage.mk? (hslChannels hue s l).1
  let g ← Percentage.mk? (hslChannels hue s l).2.1
  let b ← Percentage.mk? (hslChannels hue s l).2.2
  mk? r g b a

/-- The static method `Color.fromHWB(hue, white, black, alpha)`:
`Color.fromHSV(hue, 1 - white / black.conjugate, black.conjugate, alpha)`.
The arguments pass through the `Percentage` constructor, `black.conjugate`
throws outside `[0,1]`, and when `black.conjugate` is `0` the division
produces a non-finite saturation that the `Percentage` constructor inside
`fromHSV` rejects — modelled by the explicit `none` branch. -/
def fromHWB? (hue white black alpha : ℚ) : Option Color := do
  let w ← Percentage.mk? white
  let b ← Percentage.mk? black
  let a ← Percentage.mk? alpha
  let bc ← Percentage.conjugate? b
  if bc = 0 then none
  else fromHSV? hue (1 - w / bc) bc a

/-- The static method `Color.fromCMYK(cyan, magenta, yellow, black, alpha)`:
each channel is `new Percentage(comp.times(black.conjugate).valueOf() +
black.valueOf()).clamp().conjugate`. -/
def fromCMYK? (cyan magenta yellow black alpha : ℚ) : Option Color := do
  let cy ← Percentage.mk? cyan
  let m ← Percentage.mk? magenta
  let y ← Percentage.mk? yellow
  let k ← Percentage.mk? black
  let a ← Percentage.mk? alpha
  let kc ← Percentage.conjugate? k
  let chan := fun (comp : ℚ) => do
    let p ← Percentage.times? comp kc
    let s ← Percentage.mk? (p + k)
    Percentage.conjugate? (Percentage.clamp s)
  let r ← chan cy
  let g ← chan m
  let b ← chan y
  mk? r g b a

/-- The documented invariant of a constructed `Color`: all four stored
channels lie in `[0,1]` (they are produced by `Percentage(..).clamp()`). -/
def Valid (c : Color) : Prop :=
  0 ≤ c.red ∧ c.red ≤ 1 ∧ 0 ≤ c.green ∧ c.green ≤ 1 ∧
  0 ≤ c.blue ∧ c.blue ≤ 1 ∧ 0 ≤ c.alpha ∧ c.alpha ≤ 1

/-- The instance method `equals(color)`: the reference-equality shortcut,
then the both-transparent rule, then channel-wise exact equality. -/
def equals (c d : Color) : Bool :=
  (c == d) || (c.alpha == 0 && d.alpha == 0) ||
    (c.red == d.red && c.green == d.green && c.blue == d.blue && c.alpha == d.alpha)

end Color

/-! ### The color string grammar (`toString` hex branch, `fromString`) -/

/-- A hexadecimal digit character as produced by `Number.prototype.toString(16)`
(lower case). -/
def hexDigitChar (n : ℕ) : Char :=
  if n < 10 then Char.ofNat (48 + n) else Char.ofNat (87 + n)

/-- The helper `leadingZero(n, 16)` of `toString`:
`('0' + n.toString(16)).slice(-2)`, i.e. the last two hexadecimal digits
of `n` (two characters for every `n` in `[0, 255]`). -/
def leadingZero16 (n : ℕ) : List Char :=
  [hexDigitChar (n / 16 % 16), hexDigitChar (n % 16)]

/-- One hexadecimal digit as read by `parseInt(-, 16)` (case-insensitive). -/
def parseHexDigit? (ch : Char) : Option ℕ :=
  if '0' ≤ ch ∧ ch ≤ '9' then some (ch.toNat - 48)
  else if 'a' ≤ ch ∧ ch ≤ 'f' then some (ch.toNat - 87)
  else if 'A' ≤ ch ∧ ch ≤ 'F' then some (ch.toNat - 55)
  else none

/-- The value of `parseInt` on a two-character slice: `parseInt` consumes
the longest valid prefix, so an invalid second digit still yields the first
digit alone, while an invalid first digit yields `NaN` (`none`). -/
def parseHexPair? (c1 c2 : Char) : Option ℕ :=
  match parseHexDigit? c1 with
  | none => none
  | some d1 =>
    match parseHexDigit? c2 with
    | none => some d1
    | some d2 => some (16 * d1 + d2)

namespace Color

/-- The characters of `toString()` in the default `ColorSpace.HEX` format:
`#` followed by `leadingZero(Math.round(channel.of(255)), 16)` for red,
green and blue, and the same for alpha — but only when
`this.alpha.lessThan(1)`. -/
def toStringHexData (c : Color) : List Char :=
  '#' :: leadingZero16 (jsRound (Percentage.of c.red 255)).toNat
      ++ leadingZero16 (jsRound (Percentage.of c.green 255)).toNat
      ++ leadingZero16 (jsRound (Percentage.of c.blue 255)).toNat
      ++ (if c.alpha < 1 then leadingZero16 (jsRound (Percentage.of c.alpha 255)).toNat else [])

/-- The string returned by `toString()` in the default hex format. -/
def toStringHex (c : Color) : String := ⟨c.toStringHexData⟩

/-- The parse of the six or eight hexadecimal digits of a hex color string:
`parseInt(str.slice(1,3), 16) / 255` and so on; a missing alpha group
defaults to `1`.  A `NaN` from `parseInt` propagates into the `Percentage`
constructor, which throws. -/
def ofHexDigits? (r1 r2 g1 g2 b1 b2 : Char) (apair : Option (Char × Char)) :
    Option Color := do
  let r ← parseHexPair? r1 r2
  let g ← parseHexPair? g1 g2
  let b ← parseHexPair? b1 b2
  let a : ℚ ← match apair with
    | some (a1, a2) => (parseHexPair? a1 a2).map (fun n => (n : ℚ) / 255)
    | none => some 1
  mk? ((r : ℚ) / 255) ((g : ℚ) / 255) ((b : ℚ) / 255) a

/-- The hex branch of `fromString`: strings of total length 4, 5, 7 or 9
beginning with `#`; the short forms are expanded by doubling each digit and
re-parsed, which amounts to parsing each doubled pair directly.  Any other
length throws a `RangeError`. -/
def fromStringHex? : List Char → Option Color
  | '#' :: rest =>
    match rest with
    | [r, g, b] => ofHexDigits? r r g g b b none
    | [r, g, b, a] => ofHexDigits? r r g g b b (some (a, a))
    | [r1, r2, g1, g2, b1, b2] => ofHexDigits? r1 r2 g1 g2 b1 b2 none
    | [r1, r2, g1, g2, b1, b2, a1, a2] => ofHexDigits? r1 r2 g1 g2 b1 b2 (some (a1, a2))
    | _ => none
  | _ => none

/-- The helper `_rgbStrings`: each RGB channel is a bare number divided by
255 or a percentage string; the optional fourth channel is a bare number or
percentage, and a missing alpha lets the `Color` constructor default it
to `1`. -/
def rgbStrings? (chans : List String) : Option Color := do
  let pc := fun (s : String) => match jsToNumber s with
    | some n => Percentage.mk? (n / 255)
    | none => Percentage.fromString? s
  let r ← pc (chans.getD 0 "")
  let g ← pc (chans.getD 1 "")
  let b ← pc (chans.getD 2 "")
  let a ← if chans.getD 3 "" ≠ "" then
      match jsToNumber (chans.getD 3 "") with
      | some n => Percentage.mk? n
      | none => Percentage.fromString? (chans.getD 3 "")
    else some 1
  mk? r g b a

/-- The hue channel of `_hsvStrings`/`_hslStrings`/`_hwbStrings`: a bare
number is taken as degrees directly, otherwise
`Angle.fromString(channels[0]).convert(AngleUnit.DEG)`. -/
def hueChannel? (s : String) : Option ℚ :=
  match jsToNumber s with
  | some n => some n
  | none => (Angle.fromString? s).map (fun a => a.convert .DEG)

/-- The alpha channel shared by the functional-notation helpers: absent
(or empty, which is falsy) means `new Percentage(1)`; otherwise a bare
number fed to the `Percentage` constructor, or a percentage string. -/
def alphaChannel? (s : String) : Option ℚ :=
  if s ≠ "" then
    match jsToNumber s with
    | some n => Percentage.mk? n
    | none => Percentage.fromString? s
  else some 1

/-- The helper `_hsvStrings`: hue as above, the second and third channels
through `Percentage.fromString` (so they must end in `%`), then
`Color.fromHSV`. -/
def hsvStrings? (chans : List String) : Option Color := do
  let hue ← hueChannel? (chans.getD 0 "")
  let sat ← Percentage.fromString? (chans.getD 1 "")
  let val ← Percentage.fromString? (chans.getD 2 "")
  let a ← alphaChannel? (chans.getD 3 "")
  fromHSV? hue sat val a

/-- The helper `_hslStrings`: as `_hsvStrings` but ending in `Color.fromHSL`. -/
def hslStrings? (chans : List String) : Option Color := do
  let hue ← hueChannel? (chans.getD 0 "")
  let sat ← Percentage.fromString? (chans.getD 1 "")
  let lum ← Percentage.fromString? (chans.getD 2 "")
  let a ← alphaChannel? (chans.getD 3 "")
  fromHSL? hue sat lum a

/-- The helper `_hwbStrings`: as `_hsvStrings` but ending in `Color.fromHWB`. -/
def hwbStrings? (chans : List String) : Option Color := do
  let hue ← hueChannel? (chans.getD 0 "")
  let white ← Percentage.fromString? (chans.getD 1 "")
  let black ← Percentage.fromString? (chans.getD 2 "")
  let a ← alphaChannel? (chans.getD 3 "")
  fromHWB? hue white black a

/-- The helper `_cmykStrings`: four channels, each a bare number fed to the
`Percentage` constructor or a percentage string, an optional fifth alpha,
then `Color.fromCMYK`. -/
def cmykStrings? (chans : List String) : Option Color := do
  let pc := fun (s : String) => match jsToNumber s with
    | some n => Percentage.mk? n
    | none => Percentage.fromString? s
  let cy ← pc (chans.getD 0 "")
  let m ← pc (chans.getD 1 "")
  let y ← pc (chans.getD 2 "")
  let k ← pc (chans.getD 3 "")
  let a ← alphaChannel? (chans.getD 4 "")
  fromCMYK? cy m y k a

/-- The CSS-function branch of `fromString`: the name before `(`, the
argument list inside the parentheses, split on commas (legacy) or on spaces
with an optional `/ alpha` tail (modern), each channel trimmed, dispatched
by `xjs.Object.switch` (an unknown function name throws). -/
def fromStringFn? (s : String) : Option Color :=
  let parts := jsSplit '(' s.data
  let space := parts.headD []
  let cssarg := (parts.getD 1 []).dropLast
  let channelstrings :=
    if cssarg.contains ',' then jsSplit ',' cssarg
    else (jsSplit ' ' ((jsSplit '/' cssarg).headD [])).filter (· ≠ [])
  let channelstrings :=
    if cssarg.contains '/' then channelstrings ++ [(jsSplit '/' cssarg).getD 1 []]
    else channelstrings
  let chans : List String := channelstrings.map (fun l => ⟨jsTrim l⟩)
  if space = "rgb".data ∨ space = "rgba".data then rgbStrings? chans
  else if space = "hsv".data ∨ space = "hsva".data then hsvStrings? chans
  else if space = "hsl".data ∨ space = "hsla".data then hslStrings? chans
  else if space = "hwb".data ∨ space = "hwba".data then hwbStrings? chans
  else if space = "cmyk".data ∨ space = "cmyka".data then cmykStrings? chans
  else none

/-- The static method `Color.fromString(str)` over a named-color table:
the empty string yields the transparent default color, a leading `#` takes
the hex branch, a string without `(` is looked up in the table (a miss
throws) and its hex value re-parsed through the recursive `fromString` call
(the table maps names to hex strings, so that call takes the hex branch),
and any other string is a CSS function. -/
def fromString? (names : List (String × String)) (s : String) : Option Color :=
  if s = "" then some Color.default
  else if s.data.headD ' ' = '#' then fromStringHex? s.data
  else if ¬ s.data.contains '(' then
    ((names.find? (fun e => e.1 == s)).map Prod.snd).bind
      (fun v => fromStringHex? v.data)
  else fromStringFn? s

/-- The instance method `name()`: the first entry of the named-color table
whose lower-cased hex value equals `this.toString()`, else `null`. -/
def name? (names : List (String × String)) (c : Color) : Option String :=
  ((names.find? (fun e => jsToLowerCase e.2 == c.toStringHex)).map Prod.fst)

end Color

/-! ### Basic lemmas about the embedding -/

lemma optBindSome {α β : Type} (a : α) (f : α → Option β) :
    (Bind.bind (some a) f : Option β) = f a := rfl

lemma optBindNone {α β : Type} (f : α → Option β) :
    (Bind.bind (none : Option α) f : Option β) = none := rfl

lemma Percentage.mk_nonneg {p : ℚ} (h : 0 ≤ p) : Percentage.mk? p = some p :=
  if_pos h

lemma Percentage.mk_neg {p : ℚ} (h : p < 0) : Percentage.mk? p = none :=
  if_neg (not_le.2 h)

lemma Percentage.clamp_eq {v : ℚ} (h0 : 0 ≤ v) (h1 : v ≤ 1) :
    Percentage.clamp v = v := by
  rw [Percentage.clamp, max_eq_right h0, min_eq_left h1]

lemma Color.mk_of_nonneg {r g b a : ℚ} (hr : 0 ≤ r) (hg : 0 ≤ g) (hb : 0 ≤ b)
    (ha : 0 ≤ a) :
    Color.mk? r g b a =
      some ⟨Percentage.clamp r, Percentage.clamp g, Percentage.clamp b,
        Percentage.clamp a⟩ := by
  rw [Color.mk?, Percentage.mk_nonneg hr, optBindSome, Percentage.mk_nonneg hg,
    optBindSome, Percentage.mk_nonneg hb, optBindSome, Percentage.mk_nonneg ha,
    optBindSome]
  rfl

lemma Percentage.mk_eq_some {p y : ℚ} :
    Percentage.mk? p = some y ↔ 0 ≤ p ∧ y = p := by
  rw [Percentage.mk?]
  split_ifs with h
  · simp [h, eq_comm]
  · simp [h]

lemma Percentage.conjugate_eq {v : ℚ} (h0 : 0 ≤ v) (h1 : v ≤ 1) :
    Percentage.conjugate? v = some (1 - v) := by
  rw [Percentage.conjugate?, if_neg]
  push_neg
  exact ⟨h0, h1⟩

lemma Color.mk_none_of_neg {r g b a : ℚ}
    (h : r < 0 ∨ g < 0 ∨ b < 0 ∨ a < 0) : Color.mk? r g b a = none := by
  rw [Color.mk?]
  rcases lt_or_le r 0 with hr | hr
  · rw [Percentage.mk_neg hr, optBindNone]
  rw [Percentage.mk_nonneg hr, optBindSome]
  rcases lt_or_le g 0 with hg | hg
  · rw [Percentage.mk_neg hg, optBindNone]
  rw [Percentage.mk_nonneg hg, optBindSome]
  rcases lt_or_le b 0 with hb | hb
  · rw [Percentage.mk_neg hb, optBindNone]
  rw [Percentage.mk_nonneg hb, optBindSome]
  rcases lt_or_le a 0 with ha | ha
  · rw [Percentage.mk_neg ha, optBindNone]
  exfalso
  rcases h with h | h | h | h <;> linarith

lemma Color.mk_eq_some_iff {r g b a : ℚ} {c : Color} :
    Color.mk? r g b a = some c ↔
      0 ≤ r ∧ 0 ≤ g ∧ 0 ≤ b ∧ 0 ≤ a ∧
        c = ⟨Percentage.clamp r, Percentage.clamp g, Percentage.clamp b,
          Percentage.clamp a⟩ := by
  constructor
  · intro h
    by_cases hr : 0 ≤ r
    · by_cases hg : 0 ≤ g
      · by_cases hb : 0 ≤ b
        · by_cases ha : 0 ≤ a
          · rw [Color.mk_of_nonneg hr hg hb ha] at h
            exact ⟨hr, hg, hb, ha, (Option.some_inj.1 h).symm⟩
          · rw [Color.mk_none_of_neg (Or.inr (Or.inr (Or.inr (not_le.1 ha))))] at h
            cases h
        · rw [Color.mk_none_of_neg (Or.inr (Or.inr (Or.inl (not_le.1 hb))))] at h
          cases h
      · rw [Color.mk_none_of_neg (Or.inr (Or.inl (not_le.1 hg)))] at h
        cases h
    · rw [Color.mk_none_of_neg (Or.inl (not_le.1 hr))] at h
      cases h
  · rintro ⟨hr, hg, hb, ha, rfl⟩
    exact Color.mk_of_nonneg hr hg hb ha

lemma Percentage.clamp_nonneg (v : ℚ) : 0 ≤ Percentage.clamp v := by
  rw [Percentage.clamp]
  exact le_min (le_max_left 0 v) zero_le_one

lemma Percentage.clamp_le_one (v : ℚ) : Percentage.clamp v ≤ 1 :=
  min_le_right _ 1

lemma Color.mk_valid {r g b a : ℚ} {c : Color}
    (h : Color.mk? r g b a = some c) : c.Valid := by
  rcases Color.mk_eq_some_iff.1 h with ⟨-, -, -, -, rfl⟩
  exact ⟨Percentage.clamp_nonneg r, Percentage.clamp_le_one r,
    Percentage.clamp_nonneg g, Percentage.clamp_le_one g,
    Percentage.clamp_nonneg b, Percentage.clamp_le_one b,
    Percentage.clamp_nonneg a, Percentage.clamp_le_one a⟩

lemma Fraction.plus_char {v : ℚ} (h0 : 0 ≤ v) (h1 : v ≤ 1) (x : ℚ) :
    Fraction.plus? v x =
      if v + x < 0 ∨ 1 < v + x then none else some (v + x) := by
  rw [Fraction.plus?]
  by_cases hx : x = 0
  · subst hx
    rw [if_pos rfl, if_neg]
    · rw [add_zero]
    · rw [add_zero]
      rintro (h | h) <;> linarith
  · rw [if_neg hx]
    rcases lt_or_le (v + x) 0 with hvx | hvx
    · rw [if_pos hvx, if_pos (Or.inl hvx)]
    rw [if_neg (not_lt.2 hvx)]
    rcases lt_or_le 1 (v + x) with hvx1 | hvx1
    · rw [if_pos hvx1, if_pos (Or.inr hvx1)]
    rw [if_neg (not_lt.2 hvx1), if_neg, Fraction.mk?, if_neg]
    · rintro (h | h) <;> linarith
    · rintro (h | h) <;> linarith

lemma jsMod_eq_mul_fract {n d : ℚ} (hd : d ≠ 0) :
    jsMod n d = d * Int.fract (n / d) := by
  rw [jsMod, Int.fract, mul_sub, mul_comm d (n / d), div_mul_cancel₀ _ hd]

lemma jsMod_nonneg {d : ℚ} (n : ℚ) (hd : 0 < d) : 0 ≤ jsMod n d := by
  rw [jsMod_eq_mul_fract (ne_of_gt hd)]
  exact mul_nonneg (le_of_lt hd) (Int.fract_nonneg _)

lemma jsMod_lt {d : ℚ} (n : ℚ) (hd : 0 < d) : jsMod n d < d := by
  rw [jsMod_eq_mul_fract (ne_of_gt hd)]
  calc d * Int.fract (n / d) < d * 1 :=
        mul_lt_mul_of_pos_left (Int.fract_lt_one _) hd
    _ = d := mul_one d

lemma Color.hueSector_scale (h c k : ℚ) :
    Color.hueSector h c (c * k) =
      (c * (Color.hueSector h 1 k).1, c * (Color.hueSector h 1 k).2.1,
        c * (Color.hueSector h 1 k).2.2) := by
  rw [Color.hueSector, Color.hueSector]
  split_ifs <;> norm_num [mul_comm]

lemma Color.hueSector_pure_bounds (h k : ℚ) (hk0 : 0 ≤ k) (hk1 : k ≤ 1) :
    (0 ≤ (Color.hueSector h 1 k).1 ∧ (Color.hueSector h 1 k).1 ≤ 1) ∧
    (0 ≤ (Color.hueSector h 1 k).2.1 ∧ (Color.hueSector h 1 k).2.1 ≤ 1) ∧
    (0 ≤ (Color.hueSector h 1 k).2.2 ∧ (Color.hueSector h 1 k).2.2 ≤ 1) := by
  rw [Color.hueSector]
  split_ifs <;> norm_num [hk0, hk1]

lemma Color.fromHSV_eq (hue sat val alpha : ℚ) (hs : 0 ≤ sat) (hv : 0 ≤ val)
    (ha : 0 ≤ alpha) (hr : 0 ≤ (Color.hsvChannels hue sat val).1)
    (hg : 0 ≤ (Color.hsvChannels hue sat val).2.1)
    (hb : 0 ≤ (Color.hsvChannels hue sat val).2.2) :
    Color.fromHSV? hue sat val alpha =
      some ⟨Percentage.clamp (Color.hsvChannels hue sat val).1,
            Percentage.clamp (Color.hsvChannels hue sat val).2.1,
            Percentage.clamp (Color.hsvChannels hue sat val).2.2,
            Percentage.clamp alpha⟩ := by
  rw [Color.fromHSV?, Percentage.mk_nonneg hs, optBindSome,
    Percentage.mk_nonneg hv, optBindSome, Percentage.mk_nonneg ha, optBindSome,
    Percentage.mk_nonneg hr, optBindSome, Percentage.mk_nonneg hg, optBindSome,
    Percentage.mk_nonneg hb, optBindSome, Color.mk_of_nonneg hr hg hb ha]

lemma Color.fromHSL_eq (hue sat lum alpha : ℚ) (hs : 0 ≤ sat) (hl : 0 ≤ lum)
    (ha : 0 ≤ alpha) (hr : 0 ≤ (Color.hslChannels hue sat lum).1)
    (hg : 0 ≤ (Color.hslChannels hue sat lum).2.1)
    (hb : 0 ≤ (Color.hslChannels hue sat lum).2.2) :
    Color.fromHSL? hue sat lum alpha =
      some ⟨Percentage.clamp (Color.hslChannels hue sat lum).1,
            Percentage.clamp (Color.hslChannels hue sat lum).2.1,
            Percentage.clamp (Color.hslChannels hue sat lum).2.2,
            Percentage.clamp alpha⟩ := by
  rw [Color.fromHSL?, Percentage.mk_nonneg hs, optBindSome,
    Percentage.mk_nonneg hl, optBindSome, Percentage.mk_nonneg ha, optBindSome,
    Percentage.mk_nonneg hr, optBindSome, Percentage.mk_nonneg hg, optBindSome,
    Percentage.mk_nonneg hb, optBindSome, Color.mk_of_nonneg hr hg hb ha]

lemma parseHexDigit_hexDigitChar : ∀ d : ℕ, d < 16 →
    parseHexDigit? (hexDigitChar d) = some d := by
  decide

lemma parseHexPair_roundtrip (k : ℕ) (hk : k < 256) :
    parseHexPair? (hexDigitChar (k / 16 % 16)) (hexDigitChar (k % 16))
      = some k := by
  have h1 : k / 16 % 16 < 16 := Nat.mod_lt _ (by norm_num)
  have h2 : k % 16 < 16 := Nat.mod_lt _ (by norm_num)
  rw [parseHexPair?, parseHexDigit_hexDigitChar _ h1,
    parseHexDigit_hexDigitChar _ h2]
  simp only [Option.some.injEq]
  omega

lemma jsRound_nat (n : ℕ) : jsRound (n : ℚ) = (n : ℤ) := by
  rw [jsRound]
  rw [Int.floor_eq_iff]
  constructor
  · push_cast
    linarith
  · push_cast
    linarith

lemma channelByte (k : ℕ) : (jsRound (Percentage.of ((k : ℚ) / 255) 255)).toNat
    = k := by
  rw [Percentage.of, div_mul_cancel₀ _ (by norm_num : (255:ℚ) ≠ 0),
    jsRound_nat]
  exact Int.toNat_natCast k

end ExtraTypes

namespace ExtraTypes

/-! ### Claim C1 -/

/-- C1: the `Color` constructor does not accept every finite input: for
non-negative channel arguments it succeeds and silently clamps each channel
into `[0,1]` (storing `min input 1`), but a negative argument is rejected
with an error by the `Percentage` constructor before the clamp is ever
applied. -/
theorem C1_constructor_clamps_nonneg_rejects_negative (r g b a : ℚ) :
    (0 ≤ r ∧ 0 ≤ g ∧ 0 ≤ b ∧ 0 ≤ a →
      Color.mk? r g b a = some ⟨min r 1, min g 1, min b 1, min a 1⟩ ∧
      0 ≤ min r 1 ∧ min r 1 ≤ 1 ∧ 0 ≤ min g 1 ∧ min g 1 ≤ 1 ∧
      0 ≤ min b 1 ∧ min b 1 ≤ 1 ∧ 0 ≤ min a 1 ∧ min a 1 ≤ 1) ∧
    (r < 0 ∨ g < 0 ∨ b < 0 ∨ a < 0 → Color.mk? r g b a = none) := by
  constructor
  · rintro ⟨hr, hg, hb, ha⟩
    have hcl : ∀ v : ℚ, 0 ≤ v → Percentage.clamp v = min v 1 := by
      intro v hv
      rw [Percentage.clamp, max_eq_right hv]
    refine ⟨?_, le_min hr zero_le_one, min_le_right r 1,
      le_min hg zero_le_one, min_le_right g 1, le_min hb zero_le_one,
      min_le_right b 1, le_min ha zero_le_one, min_le_right a 1⟩
    rw [Color.mk_of_nonneg hr hg hb ha, hcl r hr, hcl g hg, hcl b hb, hcl a ha]
  · exact Color.mk_none_of_neg

/-- C1 witness: a concrete in-range construction (with an above-`1` alpha
silently clamped) and a concrete negative input that is rejected. -/
theorem C1_witness :
    Color.mk? 2 0 (1/2) (3/2) = some ⟨1, 0, 1/2, 1⟩ ∧
    Color.mk? (-1) 0 0 1 = none := by
  constructor
  · have h := (C1_constructor_clamps_nonneg_rejects_negative 2 0 (1/2) (3/2)).1
      (by norm_num)
    rw [h.1]
    norm_num
  · exact (C1_constructor_clamps_nonneg_rejects_negative (-1) 0 0 1).2
      (Or.inl (by norm_num))

/-- C1 counterexample: the claim asserts the constructor succeeds for every
finite input, including negative ones; at red `= -1/2` it throws instead. -/
theorem C1_counterexample : Color.mk? (-(1/2)) 0 0 1 = none :=
  Color.mk_none_of_neg (Or.inl (by norm_num))

/-! ### Claim C3 -/

/-- C3: `plus` and `minus` throw exactly when the exact result leaves
`[0,1]`, as claimed; but the saturating variants do not return the boundary
that was crossed: `plusClamp` returns `1` on every out-of-range result
(also on underflow) and `minusClamp` returns `0` on every out-of-range
result (also on overflow). -/
theorem C3_fraction_plus_minus_clamp (v x : ℚ) (h0 : 0 ≤ v) (h1 : v ≤ 1) :
    (Fraction.plus? v x = none ↔ (v + x < 0 ∨ 1 < v + x)) ∧
    (¬ (v + x < 0 ∨ 1 < v + x) → Fraction.plus? v x = some (v + x) ∧
      Fraction.plusClamp v x = v + x) ∧
    ((v + x < 0 ∨ 1 < v + x) → Fraction.plusClamp v x = 1) ∧
    (Fraction.minus? v x = none ↔ (v - x < 0 ∨ 1 < v - x)) ∧
    (¬ (v - x < 0 ∨ 1 < v - x) → Fraction.minus? v x = some (v - x) ∧
      Fraction.minusClamp v x = v - x) ∧
    ((v - x < 0 ∨ 1 < v - x) → Fraction.minusClamp v x = 0) := by
  have hp := Fraction.plus_char h0 h1 x
  have hm := Fraction.plus_char h0 h1 (-x)
  rw [← sub_eq_add_neg] at hm
  refine ⟨?_, ?_, ?_, ?_, ?_, ?_⟩
  · rw [hp]
    split_ifs with h
    · exact ⟨fun _ => h, fun _ => rfl⟩
    · exact ⟨fun hc => by simp at hc, fun hh => absurd hh h⟩
  · intro h
    rw [Fraction.plusClamp, hp, if_neg h]
    exact ⟨rfl, rfl⟩
  · intro h
    rw [Fraction.plusClamp, hp, if_pos h]
    rfl
  · rw [Fraction.minus?, hm]
    split_ifs with h
    · exact ⟨fun _ => h, fun _ => rfl⟩
    · exact ⟨fun hc => by simp at hc, fun hh => absurd hh h⟩
  · intro h
    rw [Fraction.minusClamp, Fraction.minus?, hm, if_neg h]
    exact ⟨rfl, rfl⟩
  · intro h
    rw [Fraction.minusClamp, Fraction.minus?, hm, if_pos h]
    rfl

/-- C3 witness: concrete in-range and out-of-range additions. -/
theorem C3_witness :
    Fraction.plus? (1/2) (1/4) = some (3/4) ∧
    Fraction.plusClamp (1/2) (3/4) = 1 ∧
    Fraction.minusClamp (1/2) (3/4) = 0 := by
  have h := C3_fraction_plus_minus_clamp (1/2) (1/4) (by norm_num) (by norm_num)
  have h2 := C3_fraction_plus_minus_clamp (1/2) (3/4) (by norm_num) (by norm_num)
  refine ⟨?_, ?_, ?_⟩
  · have := (h.2.1 (by norm_num)).1
    rw [this]
    norm_num
  · exact h2.2.2.1 (Or.inr (by norm_num))
  · exact h2.2.2.2.2.2 (Or.inl (by norm_num))

/-- C3 counterexample: the claim says `plusClamp` returns `0` when
`v + x < 0` and `minusClamp` returns `1` when `v - x > 1`; the code returns
the opposite boundary in both cases. -/
theorem C3_counterexample :
    Fraction.plusClamp 0 (-(1/2)) = 1 ∧ ¬ Fraction.plusClamp 0 (-(1/2)) = 0 ∧
    Fraction.minusClamp (1/2) (-1) = 0 ∧ ¬ Fraction.minusClamp (1/2) (-1) = 1 := by
  have e1 : Fraction.plusClamp 0 (-(1/2)) = 1 := by
    rw [Fraction.plusClamp, Fraction.plus?, if_neg (by norm_num), if_pos (by norm_num)]
    rfl
  have e2 : Fraction.minusClamp (1/2) (-1) = 0 := by
    rw [Fraction.minusClamp, Fraction.minus?, Fraction.plus?, if_neg (by norm_num),
      if_neg (by norm_num), if_pos (by norm_num)]
    rfl
  exact ⟨e1, by rw [e1]; norm_num, e2, by rw [e2]; norm_num⟩

/-! ### Claim C4 -/

/-- C4: the `Angle` constructor does not normalize: for every unit it
stores `theta / CONVERSION[unit]` unchanged, so constructing from `-0.25`
turns stores `-0.25`, not `0.75`; normalization into `[0,1)` is provided
only by the separate `canon` getter, which applies the floor-style modulo
(`(new Angle(-0.25)).canon` measures `0.75`), while `plus` and `minus`
(for an addend and a negated subtrahend not approximately zero) and
`scale` return the raw sum, difference and product without
re-normalizing. -/
theorem C4_angle_not_normalized (θ : ℚ) (u : AngleUnit) (a b : Angle)
    (hb : ¬ b.equalsB Angle.ZERO = true) :
    (Angle.make θ u).val = θ / u.conversionRate ∧
    (Angle.make θ .TURN).val = θ ∧
    a.canon.val = jsMod a.val 1 ∧ 0 ≤ a.canon.val ∧ a.canon.val < 1 ∧
    (Angle.make (-(1/4)) .TURN).canon.val = 3/4 ∧
    (a.plus b).val = a.val + b.val ∧
    (a.minus b).val = a.val - b.val ∧
    (∀ k : ℚ, (a.scale k).val = a.val * k) := by
  have hfract : ∀ x : ℚ, jsMod x 1 = Int.fract x := by
    intro x
    rw [jsMod, Int.fract, div_one, one_mul]
  refine ⟨rfl, ?_, rfl, ?_, ?_, ?_, ?_, ?_, fun k => rfl⟩
  · rw [Angle.make, AngleUnit.conversionRate, div_one]
  · rw [Angle.canon, hfract]
    exact Int.fract_nonneg _
  · rw [Angle.canon, hfract]
    exact Int.fract_lt_one _
  · rw [Angle.canon, Angle.make, AngleUnit.conversionRate, hfract]
    rw [show (-(1/4) : ℚ) / 1 = -(1/4) by norm_num, Int.fract]
    rw [show ⌊(-(1/4) : ℚ)⌋ = -1 by norm_num]
    norm_num
  · rw [Angle.plus, if_neg]
    exact hb
  · have hneg : ¬ (⟨-b.val⟩ : Angle).equalsB Angle.ZERO = true := by
      simp only [Angle.equalsB, Angle.ZERO, Angle.make, jsApprox,
        decide_eq_true_eq] at hb ⊢
      rwa [show -b.val - 0 / (AngleUnit.conversionRate .TURN)
          = -(b.val - 0 / (AngleUnit.conversionRate .TURN)) by ring, abs_neg]
    rw [Angle.minus, Angle.plus, if_neg hneg]
    show a.val + -b.val = a.val - b.val
    ring

/-- C4 witness: the sum of `0.5` turn and `0.75` turn has measure `1.25`,
outside `[0, 1)`, and the difference of `0.25` turn and `0.5` turn has
measure `-0.25`, also outside `[0, 1)`. -/
theorem C4_witness :
    ((Angle.make (1/2) .TURN).plus (Angle.make (3/4) .TURN)).val = 5/4 ∧
    ((Angle.make (1/4) .TURN).minus (Angle.make (1/2) .TURN)).val = -(1/4) := by
  have hb : ¬ (Angle.make (3/4) .TURN).equalsB Angle.ZERO = true := by
    simp only [Angle.make, Angle.ZERO, Angle.equalsB, AngleUnit.conversionRate,
      jsApprox, jsEpsilon, decide_eq_true_eq]
    rw [show |(3 : ℚ)/4/1 - 0/1| = 3/4 by norm_num]
    norm_num
  have hb2 : ¬ (Angle.make (1/2) .TURN).equalsB Angle.ZERO = true := by
    simp only [Angle.make, Angle.ZERO, Angle.equalsB, AngleUnit.conversionRate,
      jsApprox, jsEpsilon, decide_eq_true_eq]
    rw [show |(1 : ℚ)/2/1 - 0/1| = 1/2 by norm_num]
    norm_num
  constructor
  · have h := C4_angle_not_normalized 0 .TURN (Angle.make (1/2) .TURN)
      (Angle.make (3/4) .TURN) hb
    rw [h.2.2.2.2.2.2.1]
    norm_num [Angle.make, AngleUnit.conversionRate]
  · have h := C4_angle_not_normalized 0 .TURN (Angle.make (1/4) .TURN)
      (Angle.make (1/2) .TURN) hb2
    rw [h.2.2.2.2.2.2.2.1]
    norm_num [Angle.make, AngleUnit.conversionRate]

/-- C4 counterexample: constructing an `Angle` from `-0.25` turns stores
`-0.25` — not the claimed `0.75` — and the stored value is negative,
outside `[0,1)`. -/
theorem C4_counterexample :
    (Angle.make (-(1/4)) .TURN).val = -(1/4) ∧
    ¬ (Angle.make (-(1/4)) .TURN).val = 3/4 ∧
    ¬ 0 ≤ (Angle.make (-(1/4)) .TURN).val := by
  have h : (Angle.make (-(1/4)) .TURN).val = -(1/4) := by
    rw [Angle.make, AngleUnit.conversionRate, div_one]
  exact ⟨h, by rw [h]; norm_num, by rw [h]; norm_num⟩

/-! ### Claim C6 -/

/-- C6: the shared hue accessor returns `0` when the chroma is `0`;
otherwise the maximal channel is selected by testing red, then green, then
blue (the first match winning on ties), and the returned degree value is
`360` times the claimed turn-valued formula for the selected channel. -/
theorem C6_hue_accessor (c : Color) :
    (c.chroma = 0 → c.hsvHue = 0) ∧
    (c.chroma ≠ 0 → c.red = c.maxC →
      c.hsvHue = 360 * (jsMod ((c.green - c.blue) / c.chroma + 6) 6 / 6)) ∧
    (c.chroma ≠ 0 → c.red ≠ c.maxC → c.green = c.maxC →
      c.hsvHue = 360 * (((c.blue - c.red) / c.chroma + 2) / 6)) ∧
    (c.chroma ≠ 0 → c.red ≠ c.maxC → c.green ≠ c.maxC →
      c.blue = c.maxC ∧
      c.hsvHue = 360 * (((c.red - c.green) / c.chroma + 4) / 6)) := by
  refine ⟨?_, ?_, ?_, ?_⟩
  · intro h
    rw [Color.hsvHue, if_pos h]
  · intro h hr
    rw [Color.hsvHue, if_neg h, if_pos hr]
    ring
  · intro h hr hg
    rw [Color.hsvHue, if_neg h, if_neg hr, if_pos hg]
    ring
  · intro h hr hg
    constructor
    · rcases max_choice c.red (max c.green c.blue) with hm | hm
      · exact absurd hm.symm hr
      · rcases max_choice c.green c.blue with hm2 | hm2
        · exact absurd (by rw [Color.maxC, hm, hm2]) (Ne.symm hg ∘ Eq.symm)
        · rw [Color.maxC, hm, hm2]
    · rw [Color.hsvHue, if_neg h, if_neg hr, if_neg hg]
      ring

/-- C6 witness: the color with channels `(1, 1/2, 0)` has red maximal and
hue `30` degrees, i.e. `1/12` of a turn. -/
theorem C6_witness : Color.hsvHue ⟨1, 1/2, 0, 1⟩ = 30 := by
  have h := (C6_hue_accessor ⟨1, 1/2, 0, 1⟩).2.1
    (by norm_num [Color.chroma, Color.maxC, Color.minC])
    (by norm_num [Color.maxC])
  rw [h]
  rw [show jsMod ((1/2 - 0) / Color.chroma ⟨1, 1/2, 0, 1⟩ + 6) 6 = 1/2 by
    norm_num [Color.chroma, Color.maxC, Color.minC, jsMod]]
  norm_num

/-! ### Claim C9 -/

/-- C9: `equals` returns `true` when both alphas are exactly `0` regardless
of RGB, and otherwise exactly when all four channels are pairwise equal;
in particular any two colors constructed with alpha `0` are equal. -/
theorem C9_equals_transparent_collapse :
    (∀ c d : Color, Color.equals c d = true ↔
      ((c.alpha = 0 ∧ d.alpha = 0) ∨
        (c.red = d.red ∧ c.green = d.green ∧ c.blue = d.blue ∧
          c.alpha = d.alpha))) ∧
    (∀ r g b r2 g2 b2 : ℚ, ∀ c d : Color,
      Color.mk? r g b 0 = some c → Color.mk? r2 g2 b2 0 = some d →
      Color.equals c d = true) := by
  have hiff : ∀ c d : Color, Color.equals c d = true ↔
      ((c.alpha = 0 ∧ d.alpha = 0) ∨
        (c.red = d.red ∧ c.green = d.green ∧ c.blue = d.blue ∧
          c.alpha = d.alpha)) := by
    intro c d
    rw [Color.equals]
    simp only [Bool.or_eq_true, Bool.and_eq_true, beq_iff_eq, and_assoc]
    constructor
    · rintro ((rfl | h) | h)
      · exact Or.inr ⟨rfl, rfl, rfl, rfl⟩
      · exact Or.inl h
      · exact Or.inr h
    · rintro (h | h)
      · exact Or.inl (Or.inr h)
      · exact Or.inr h
  refine ⟨hiff, ?_⟩
  intro r g b r2 g2 b2 c d hc hd
  have hca : c.alpha = 0 := by
    rcases Color.mk_eq_some_iff.1 hc with ⟨-, -, -, -, rfl⟩
    norm_num [Percentage.clamp]
  have hda : d.alpha = 0 := by
    rcases Color.mk_eq_some_iff.1 hd with ⟨-, -, -, -, rfl⟩
    norm_num [Percentage.clamp]
  exact (hiff c d).2 (Or.inl ⟨hca, hda⟩)

/-- C9 witness: two concrete fully-transparent colors with different RGB
channels are `equals`. -/
theorem C9_witness : Color.equals ⟨1, 0, 0, 0⟩ ⟨0, 1, 1/2, 0⟩ = true := by
  apply C9_equals_transparent_collapse.2 1 0 0 0 1 (1/2) _ _
  · rw [Color.mk_of_nonneg (by norm_num) (by norm_num) (by norm_num) (by norm_num)]
    norm_num [Percentage.clamp]
  · rw [Color.mk_of_nonneg (by norm_num) (by norm_num) (by norm_num) (by norm_num)]
    norm_num [Percentage.clamp]

/-! ### Claim C2 -/

/-- C2: `mix` interpolates each RGB channel linearly as claimed, but its
alpha is the weight-independent compound opacity
`1 - (1-a1)·(1-a2)` — `Color._compoundOpacity` receives no weight — not the
claimed weighted form `1 - (1-a1)^(1-w)·(1-a2)^w`. -/
theorem C2_mix_channels_and_alpha (c1 c2 : Color) (w : ℚ)
    (h1 : c1.Valid) (h2 : c2.Valid) (hw0 : 0 ≤ w) (hw1 : w ≤ 1) :
    Color.mix? c1 c2 w =
      some ⟨c1.red * (1 - w) + c2.red * w,
            c1.green * (1 - w) + c2.green * w,
            c1.blue * (1 - w) + c2.blue * w,
            1 - (1 - c1.alpha) * (1 - c2.alpha)⟩ := by
  obtain ⟨hr0, hr1, hg0, hg1, hb0, hb1, ha0, ha1⟩ := h1
  obtain ⟨kr0, kr1, kg0, kg1, kb0, kb1, ka0, ka1⟩ := h2
  have havg : ∀ p q : ℚ, 0 ≤ p → p ≤ 1 → 0 ≤ q → q ≤ 1 →
      0 ≤ jsAverage p q w ∧ jsAverage p q w ≤ 1 := by
    intro p q hp0 hp1 hq0 hq1
    constructor
    · have := mul_nonneg hp0 (by linarith : (0:ℚ) ≤ 1 - w)
      have := mul_nonneg hq0 hw0
      rw [jsAverage]
      linarith
    · have h1 : p * (1 - w) ≤ 1 * (1 - w) :=
        mul_le_mul_of_nonneg_right hp1 (by linarith)
      have h2 : q * w ≤ 1 * w := mul_le_mul_of_nonneg_right hq1 hw0
      rw [jsAverage]
      linarith
  obtain ⟨har0, har1⟩ := havg c1.red c2.red hr0 hr1 kr0 kr1
  obtain ⟨hag0, hag1⟩ := havg c1.green c2.green hg0 hg1 kg0 kg1
  obtain ⟨hab0, hab1⟩ := havg c1.blue c2.blue hb0 hb1 kb0 kb1
  have hprod0 : 0 ≤ (1 - c1.alpha) * (1 - c2.alpha) :=
    mul_nonneg (by linarith) (by linarith)
  have hprod1 : (1 - c1.alpha) * (1 - c2.alpha) ≤ 1 :=
    mul_le_one₀ (by linarith) (by linarith) (by linarith)
  have hco : Color.compoundOpacity2? c1.alpha c2.alpha =
      some (1 - (1 - c1.alpha) * (1 - c2.alpha)) := by
    rw [Color.compoundOpacity2?, Percentage.conjugate_eq ha0 ha1, optBindSome,
      Percentage.conjugate_eq ka0 ka1, optBindSome, Percentage.times?,
      Percentage.mk_nonneg hprod0, optBindSome,
      Percentage.conjugate_eq hprod0 hprod1]
  rw [Color.mix?, Percentage.mk_nonneg har0, optBindSome,
    Percentage.mk_nonneg hag0, optBindSome, Percentage.mk_nonneg hab0,
    optBindSome, hco, optBindSome,
    Color.mk_of_nonneg har0 hag0 hab0 (by linarith),
    Percentage.clamp_eq har0 har1, Percentage.clamp_eq hag0 hag1,
    Percentage.clamp_eq hab0 hab1,
    Percentage.clamp_eq (by linarith) (by linarith)]
  rw [jsAverage, jsAverage, jsAverage]

/-- C2 witness: mixing two half-transparent black colors with weight `1/2`
yields the channels of the amended formula. -/
theorem C2_witness :
    Color.mix? ⟨0, 0, 0, 1/2⟩ ⟨0, 0, 0, 1/2⟩ (1/2) = some ⟨0, 0, 0, 3/4⟩ := by
  have h := C2_mix_channels_and_alpha ⟨0, 0, 0, 1/2⟩ ⟨0, 0, 0, 1/2⟩ (1/2)
    (by norm_num [Color.Valid]) (by norm_num [Color.Valid])
    (by norm_num) (by norm_num)
  rw [h]
  norm_num

/-- C2 counterexample: at two alphas `1/2` and weight `1/2` the code
produces alpha `3/4`, while the claimed weighted compound-opacity formula
evaluates to `1/2`. -/
theorem C2_counterexample :
    Color.mix? ⟨0, 0, 0, 1/2⟩ ⟨0, 0, 0, 1/2⟩ (1/2) = some ⟨0, 0, 0, 3/4⟩ ∧
    (1 - (1 - (1/2 : ℝ)) ^ ((1 : ℝ) - 1/2) * (1 - (1/2 : ℝ)) ^ ((1/2 : ℝ))
      = 1/2) ∧
    ((3 : ℝ)/4 ≠ 1/2) := by
  refine ⟨?_, ?_, by norm_num⟩
  · have hco : Color.compoundOpacity2? (1/2) (1/2) = some (3/4) := by
      rw [Color.compoundOpacity2?,
        Percentage.conjugate_eq (show (0:ℚ) ≤ 1/2 by norm_num)
          (show (1:ℚ)/2 ≤ 1 by norm_num),
        optBindSome, optBindSome, Percentage.times?,
        Percentage.mk_nonneg (show (0:ℚ) ≤ (1 - 1/2) * (1 - 1/2) by norm_num),
        optBindSome,
        Percentage.conjugate_eq
          (show (0:ℚ) ≤ (1 - 1/2) * (1 - 1/2) by norm_num)
          (show ((1:ℚ) - 1/2) * (1 - 1/2) ≤ 1 by norm_num)]
      norm_num
    rw [Color.mix?]
    dsimp only
    rw [show jsAverage (0:ℚ) 0 (1/2) = 0 by norm_num [jsAverage]]
    rw [Percentage.mk_nonneg (le_refl (0:ℚ)), optBindSome, optBindSome,
      optBindSome, hco, optBindSome,
      Color.mk_of_nonneg (le_refl (0:ℚ)) (le_refl (0:ℚ)) (le_refl (0:ℚ))
        (show (0:ℚ) ≤ 3/4 by norm_num)]
    norm_num [Percentage.clamp]
  · have hhalf : ((1 : ℝ) - 1/2) = 1/2 := by norm_num
    rw [hhalf, ← Real.rpow_add (show (0:ℝ) < 1/2 by norm_num)]
    rw [show (1/2 : ℝ) + 1/2 = 1 by norm_num, Real.rpow_one]
    norm_num

/-! ### Claim C10 -/

/-- C10: provided every value in the named-color table is a 7-character
string, `name()` returns `null` for every color whose alpha is strictly
less than `1`: the hex serialization then has 9 characters and can never
match a table value. -/
theorem C10_name_misses_translucent (names : List (String × String))
    (c : Color) (h7 : ∀ e ∈ names, (e.2).length = 7) (ha : c.alpha < 1) :
    Color.name? names c = none := by
  rw [Color.name?]
  have hnone : names.find? (fun e => jsToLowerCase e.2 == Color.toStringHex c)
      = none := by
    rw [List.find?_eq_none]
    intro e he
    simp only [beq_iff_eq]
    intro heq
    have hlen : (jsToLowerCase e.2).data.length
        = (Color.toStringHex c).data.length := by
      rw [heq]
    rw [jsToLowerCase, Color.toStringHex] at hlen
    simp only [List.length_map] at hlen
    have h9 : (Color.toStringHexData c).length = 9 := by
      rw [Color.toStringHexData, if_pos ha]
      simp [leadingZero16]
    have h7e : e.2.data.length = 7 := h7 e he
    rw [h7e, h9] at hlen
    cases hlen
  rw [hnone]
  rfl

/-- C10 witness: a concrete half-transparent color misses a concrete
one-entry table. -/
theorem C10_witness :
    Color.name? [("white", "#ffffff")] ⟨1, 1, 1, 1/2⟩ = none := by
  apply C10_name_misses_translucent
  · intro e he
    simp only [List.mem_singleton] at he
    rw [he]
    rfl
  · norm_num

/-! ### Claim C5 -/

/-- C5: for white `w` and black `b` with `w`, `b`, `w + b` in `[0,1]` *and*
`b < 1`, and alpha in `[0,1]`, `fromHWB` returns the pure-hue color of
`fromHSL(h, 1, 0.5)` with each channel blended toward white:
`channel·(1-w-b) + w` (the clamp the claim mentions never fires in exact
arithmetic) and alpha `a`.  At `b = 1` the code divides by
`black.conjugate = 0` and throws instead of returning a color. -/
theorem C5_fromHWB_blends_pure_hue (h w b a : ℚ) (hw : 0 ≤ w) (hb0 : 0 ≤ b)
    (hwb : w + b ≤ 1) (hb1 : b < 1) (ha0 : 0 ≤ a) (ha1 : a ≤ 1) :
    ∃ pure : Color, Color.fromHSL? h 1 (1/2) 1 = some pure ∧
      Color.fromHWB? h w b a =
        some ⟨pure.red * (1 - w - b) + w, pure.green * (1 - w - b) + w,
              pure.blue * (1 - w - b) + w, a⟩ := by
  have hm0 : 0 ≤ jsMod (jsMod h 360 / 60) 2 := jsMod_nonneg _ (by norm_num)
  have hm2 : jsMod (jsMod h 360 / 60) 2 < 2 := jsMod_lt _ (by norm_num)
  set k : ℚ := 1 - |jsMod (jsMod h 360 / 60) 2 - 1| with hk
  have habs : |jsMod (jsMod h 360 / 60) 2 - 1| ≤ 1 :=
    abs_le.2 ⟨by linarith, by linarith⟩
  have hk0 : 0 ≤ k := by rw [hk]; linarith
  have hk1 : k ≤ 1 := by
    rw [hk]
    have := abs_nonneg (jsMod (jsMod h 360 / 60) 2 - 1)
    linarith
  obtain ⟨⟨hp10, hp11⟩, ⟨hp20, hp21⟩, hp30, hp31⟩ :=
    Color.hueSector_pure_bounds (jsMod h 360) k hk0 hk1
  have hpure : Color.hslChannels h 1 (1/2) =
      ((Color.hueSector (jsMod h 360) 1 k).1,
       (Color.hueSector (jsMod h 360) 1 k).2.1,
       (Color.hueSector (jsMod h 360) 1 k).2.2) := by
    rw [Color.hslChannels, hk]
    norm_num
  refine ⟨⟨(Color.hueSector (jsMod h 360) 1 k).1,
           (Color.hueSector (jsMod h 360) 1 k).2.1,
           (Color.hueSector (jsMod h 360) 1 k).2.2, 1⟩, ?_, ?_⟩
  · rw [Color.fromHSL_eq h 1 (1/2) 1 (by norm_num) (by norm_num) (by norm_num)
      (by rw [hpure]; exact hp10) (by rw [hpure]; exact hp20)
      (by rw [hpure]; exact hp30), hpure]
    dsimp only
    rw [Percentage.clamp_eq hp10 hp11, Percentage.clamp_eq hp20 hp21,
      Percentage.clamp_eq hp30 hp31,
      Percentage.clamp_eq (by norm_num) (le_refl 1)]
  · have h1b : (0:ℚ) < 1 - b := by linarith
    have hbc : Percentage.conjugate? b = some (1 - b) :=
      Percentage.conjugate_eq hb0 (by linarith)
    have hs0 : 0 ≤ 1 - w / (1 - b) := by
      rw [sub_nonneg, div_le_one h1b]
      linarith
    have hcc : (1 - w / (1 - b)) * (1 - b) = 1 - w - b := by
      field_simp
      ring
    have hcc0 : (0:ℚ) ≤ 1 - w - b := by linarith
    have hchan : Color.hsvChannels h (1 - w / (1 - b)) (1 - b) =
        ((1 - w - b) * (Color.hueSector (jsMod h 360) 1 k).1 + w,
         (1 - w - b) * (Color.hueSector (jsMod h 360) 1 k).2.1 + w,
         (1 - w - b) * (Color.hueSector (jsMod h 360) 1 k).2.2 + w) := by
      rw [Color.hsvChannels]
      rw [hcc, ← hk, Color.hueSector_scale]
      rw [show (1 - b) - (1 - w - b) = w by ring]
    have hch1 : 0 ≤ (1 - w - b) * (Color.hueSector (jsMod h 360) 1 k).1 + w :=
      add_nonneg (mul_nonneg hcc0 hp10) hw
    have hch2 : 0 ≤ (1 - w - b) * (Color.hueSector (jsMod h 360) 1 k).2.1 + w :=
      add_nonneg (mul_nonneg hcc0 hp20) hw
    have hch3 : 0 ≤ (1 - w - b) * (Color.hueSector (jsMod h 360) 1 k).2.2 + w :=
      add_nonneg (mul_nonneg hcc0 hp30) hw
    have hle : ∀ p : ℚ, p ≤ 1 → (1 - w - b) * p + w ≤ 1 := by
      intro p hp
      have := mul_le_mul_of_nonneg_left hp hcc0
      linarith [this]
    rw [Color.fromHWB?, Percentage.mk_nonneg hw, optBindSome,
      Percentage.mk_nonneg hb0, optBindSome, Percentage.mk_nonneg ha0,
      optBindSome, hbc, optBindSome, if_neg (ne_of_gt h1b)]
    rw [Color.fromHSV_eq h (1 - w / (1 - b)) (1 - b) a hs0 (le_of_lt h1b) ha0
      (by rw [hchan]; exact hch1) (by rw [hchan]; exact hch2)
      (by rw [hchan]; exact hch3), hchan]
    rw [show ((1 - w - b) * (Color.hueSector (jsMod h 360) 1 k).1 + w,
         (1 - w - b) * (Color.hueSector (jsMod h 360) 1 k).2.1 + w,
         (1 - w - b) * (Color.hueSector (jsMod h 360) 1 k).2.2 + w).1
        = (1 - w - b) * (Color.hueSector (jsMod h 360) 1 k).1 + w from rfl]
    rw [Percentage.clamp_eq hch1 (hle _ hp11), Percentage.clamp_eq hch2 (hle _ hp21),
      Percentage.clamp_eq hch3 (hle _ hp31), Percentage.clamp_eq ha0 ha1]
    simp only [Option.some.injEq, Color.mk.injEq]
    exact ⟨by ring, by ring, by ring, trivial⟩

/-- C5 witness: the theorem applied at hue `0`, white `1/4`, black `1/4`,
alpha `1`. -/
theorem C5_witness :
    ∃ pure : Color, Color.fromHSL? 0 1 (1/2) 1 = some pure ∧
      Color.fromHWB? 0 (1/4) (1/4) 1 =
        some ⟨pure.red * (1 - 1/4 - 1/4) + 1/4,
              pure.green * (1 - 1/4 - 1/4) + 1/4,
              pure.blue * (1 - 1/4 - 1/4) + 1/4, 1⟩ :=
  C5_fromHWB_blends_pure_hue 0 (1/4) (1/4) 1 (by norm_num) (by norm_num)
    (by norm_num) (by norm_num) (by norm_num) (by norm_num)

/-- C5 counterexample: at `w = 0`, `b = 1` (which satisfy the claim's
hypotheses) the claim demands the pure black color, but `fromHWB` throws:
the saturation `1 - w / black.conjugate` is a division by zero. -/
theorem C5_counterexample : Color.fromHWB? 0 0 1 1 = none := by
  rw [Color.fromHWB?, Percentage.mk_nonneg (le_refl (0:ℚ)), optBindSome,
    Percentage.mk_nonneg (show (0:ℚ) ≤ 1 by norm_num), optBindSome, optBindSome,
    Percentage.conjugate_eq (show (0:ℚ) ≤ 1 by norm_num) (le_refl 1),
    optBindSome, if_pos (show (1:ℚ) - 1 = 0 by norm_num)]

/-! ### Claim C7 -/

/-- C7: for a color whose four channels are integer multiples of `1/255`,
`fromString(color.toString())` in the default hex format returns exactly
the original color; the serialization appends the trailing alpha pair only
when alpha is strictly less than `1` (9 characters instead of 7), and
parsing a 6-digit hex string defaults alpha to full opacity. -/
theorem C7_hex_roundtrip (names : List (String × String)) (kr kg kb ka : ℕ)
    (hr : kr ≤ 255) (hg : kg ≤ 255) (hb : kb ≤ 255) (ha : ka ≤ 255) :
    Color.fromString? names
        (Color.toStringHex ⟨(kr : ℚ)/255, (kg : ℚ)/255, (kb : ℚ)/255, (ka : ℚ)/255⟩)
      = some ⟨(kr : ℚ)/255, (kg : ℚ)/255, (kb : ℚ)/255, (ka : ℚ)/255⟩ ∧
    (ka < 255 → (Color.toStringHexData
      ⟨(kr : ℚ)/255, (kg : ℚ)/255, (kb : ℚ)/255, (ka : ℚ)/255⟩).length = 9) ∧
    (ka = 255 → (Color.toStringHexData
      ⟨(kr : ℚ)/255, (kg : ℚ)/255, (kb : ℚ)/255, (ka : ℚ)/255⟩).length = 7) ∧
    (∀ (d1 d2 d3 d4 d5 d6 : Char) (c : Color),
      Color.fromStringHex? ['#', d1, d2, d3, d4, d5, d6] = some c →
      c.alpha = 1) := by
  have hbounds : ∀ k : ℕ, k ≤ 255 → 0 ≤ (k : ℚ)/255 ∧ (k : ℚ)/255 ≤ 1 := by
    intro k hk
    constructor
    · positivity
    · rw [div_le_one (by norm_num)]
      exact_mod_cast hk
  obtain ⟨hr0, hr1⟩ := hbounds kr hr
  obtain ⟨hg0, hg1⟩ := hbounds kg hg
  obtain ⟨hb0, hb1⟩ := hbounds kb hb
  obtain ⟨ha0, ha1⟩ := hbounds ka ha
  have hlt256 : ∀ k : ℕ, k ≤ 255 → k < 256 := fun k hk => Nat.lt_succ_of_le hk
  have hdata9 : ka < 255 → Color.toStringHexData
      ⟨(kr : ℚ)/255, (kg : ℚ)/255, (kb : ℚ)/255, (ka : ℚ)/255⟩ =
      '#' :: (leadingZero16 kr ++ leadingZero16 kg ++ leadingZero16 kb ++
        leadingZero16 ka) := by
    intro hlt
    have hqlt : (ka : ℚ)/255 < 1 := by
      rw [div_lt_one (by norm_num)]
      exact_mod_cast hlt
    rw [Color.toStringHexData]
    dsimp only
    rw [if_pos hqlt, channelByte kr, channelByte kg, channelByte kb,
      channelByte ka]
    simp [List.append_assoc]
  have hdata7 : ka = 255 → Color.toStringHexData
      ⟨(kr : ℚ)/255, (kg : ℚ)/255, (kb : ℚ)/255, (ka : ℚ)/255⟩ =
      '#' :: (leadingZero16 kr ++ leadingZero16 kg ++ leadingZero16 kb) := by
    intro heq
    subst heq
    rw [Color.toStringHexData]
    dsimp only
    rw [if_neg (by norm_num), channelByte kr, channelByte kg, channelByte kb]
    simp
  have hmk : ∀ aq : ℚ, 0 ≤ aq → aq ≤ 1 →
      Color.mk? ((kr : ℚ)/255) ((kg : ℚ)/255) ((kb : ℚ)/255) aq =
        some ⟨(kr : ℚ)/255, (kg : ℚ)/255, (kb : ℚ)/255, aq⟩ := by
    intro aq h0 h1
    rw [Color.mk_of_nonneg hr0 hg0 hb0 h0, Percentage.clamp_eq hr0 hr1,
      Percentage.clamp_eq hg0 hg1, Percentage.clamp_eq hb0 hb1,
      Percentage.clamp_eq h0 h1]
  refine ⟨?_, fun hlt => by rw [hdata9 hlt]; simp [leadingZero16],
    fun heq => by rw [hdata7 heq]; simp [leadingZero16], ?_⟩
  · have h0 : Color.fromString? names
        (Color.toStringHex ⟨(kr : ℚ)/255, (kg : ℚ)/255, (kb : ℚ)/255, (ka : ℚ)/255⟩)
        = Color.fromStringHex? (Color.toStringHexData
          ⟨(kr : ℚ)/255, (kg : ℚ)/255, (kb : ℚ)/255, (ka : ℚ)/255⟩) := rfl
    rw [h0]
    rcases Nat.lt_or_ge ka 255 with hlt | hge
    · rw [hdata9 hlt]
      simp only [leadingZero16, List.cons_append, List.nil_append]
      simp only [Color.fromStringHex?]
      rw [Color.ofHexDigits?]
      rw [parseHexPair_roundtrip kr (hlt256 kr hr), optBindSome,
        parseHexPair_roundtrip kg (hlt256 kg hg), optBindSome,
        parseHexPair_roundtrip kb (hlt256 kb hb), optBindSome]
      dsimp only
      rw [parseHexPair_roundtrip ka (hlt256 ka ha)]
      show Color.mk? ((kr : ℚ)/255) ((kg : ℚ)/255) ((kb : ℚ)/255) ((ka : ℚ)/255)
        = some ⟨(kr : ℚ)/255, (kg : ℚ)/255, (kb : ℚ)/255, (ka : ℚ)/255⟩
      exact hmk _ ha0 ha1
    · have heq : ka = 255 := le_antisymm ha hge
      subst heq
      rw [hdata7 rfl]
      simp only [leadingZero16, List.cons_append, List.nil_append]
      simp only [Color.fromStringHex?]
      rw [Color.ofHexDigits?]
      rw [parseHexPair_roundtrip kr (hlt256 kr hr), optBindSome,
        parseHexPair_roundtrip kg (hlt256 kg hg), optBindSome,
        parseHexPair_roundtrip kb (hlt256 kb hb), optBindSome]
      show Color.mk? ((kr : ℚ)/255) ((kg : ℚ)/255) ((kb : ℚ)/255) 1
        = some ⟨(kr : ℚ)/255, (kg : ℚ)/255, (kb : ℚ)/255, ((255 : ℕ) : ℚ)/255⟩
      rw [hmk 1 (by norm_num) (by norm_num)]
      norm_num
  · intro d1 d2 d3 d4 d5 d6 c hc
    simp only [Color.fromStringHex?] at hc
    rw [Color.ofHexDigits?] at hc
    rcases h1 : parseHexPair? d1 d2 with _ | r
    · rw [h1, optBindNone] at hc
      cases hc
    rw [h1, optBindSome] at hc
    rcases h2 : parseHexPair? d3 d4 with _ | g
    · rw [h2, optBindNone] at hc
      cases hc
    rw [h2, optBindSome] at hc
    rcases h3 : parseHexPair? d5 d6 with _ | b
    · rw [h3, optBindNone] at hc
      cases hc
    rw [h3, optBindSome] at hc
    dsimp only at hc
    rw [optBindSome] at hc
    rcases Color.mk_eq_some_iff.1 hc with ⟨-, -, -, -, rfl⟩
    norm_num [Percentage.clamp]

/-! ### Claim C8 -/

/-- C8: `fromString("hsl(0,0,0)")` raises a format error and returns no
color: in the hsl syntax the second and third channels go through
`Percentage.fromString`, which requires a trailing `%`, so the bare `0`s in
positions two and three are rejected — even though the bare number `0` is
accepted for the hue channel, as the parse of the same string with
percentage channels shows. -/
theorem C8_hsl_bare_channels_rejected (names : List (String × String)) :
    Color.fromString? names "hsl(0,0,0)" = none ∧
    Percentage.fromString? "0" = none ∧
    jsToNumber "0" = some 0 ∧
    Color.fromString? names "hsl(0,0%,0%)" = some ⟨0, 0, 0, 1⟩ := by
  have e1 : jsToNumber "0" = some 0 := by
    simp [jsToNumber, decimalCore, digitsVal, show ("0".data) = ['0'] from rfl]
  have eh : Color.hueChannel? "0" = some 0 := by
    rw [Color.hueChannel?, e1]
  have e3 : Percentage.fromString? "0" = none := by
    simp [Percentage.fromString?, show ("0".data) = ['0'] from rfl]
  refine ⟨?_, e3, e1, ?_⟩
  · have h1 : Color.fromString? names "hsl(0,0,0)" =
        Color.hslStrings? ["0", "0", "0"] := rfl
    rw [h1, Color.hslStrings?]
    simp only [show (["0", "0", "0"].getD 0 "") = "0" from rfl,
      show (["0", "0", "0"].getD 1 "") = "0" from rfl]
    rw [eh, e3]
    rfl
  · have h1 : Color.fromString? names "hsl(0,0%,0%)" = (do
        let hue ← Color.hueChannel? "0"
        let sat ← Percentage.fromString? "0%"
        let lum ← Percentage.fromString? "0%"
        let a ← Color.alphaChannel? ""
        Color.fromHSL? hue sat lum a) := rfl
    have e2 : Percentage.fromString? "0%" = some 0 := by
      simp [Percentage.fromString?, Percentage.mk?, decimalCore, digitsVal,
        show ("0%".data) = ['0', '%'] from rfl]
    have e4 : Color.alphaChannel? "" = some 1 := rfl
    rw [h1, eh, e2, e4]
    show Color.fromHSL? 0 0 0 1 = some ⟨0, 0, 0, 1⟩
    have hch : Color.hslChannels 0 0 0 = (0, 0, 0) := by
      norm_num [Color.hslChannels, jsMod, Color.hueSector]
    rw [Color.fromHSL_eq 0 0 0 1 le_rfl le_rfl zero_le_one
      (by rw [hch]) (by rw [hch]) (by rw [hch]), hch]
    norm_num [Percentage.clamp]

/-- C8 witness: the rejection over a concrete named-color table. -/
theorem C8_witness :
    Color.fromString? [("black", "#000000")] "hsl(0,0,0)" = none :=
  (C8_hsl_bare_channels_rejected [("black", "#000000")]).1

/-- C7 witness: the round trip of the palegreen color at half opacity. -/
theorem C7_witness :
    Color.fromString? []
        (Color.toStringHex ⟨(152 : ℚ)/255, (251 : ℚ)/255, (152 : ℚ)/255,
          (128 : ℚ)/255⟩)
      = some ⟨(152 : ℚ)/255, (251 : ℚ)/255, (152 : ℚ)/255, (128 : ℚ)/255⟩ := by
  have h := (C7_hex_roundtrip [] 152 251 152 128 (by norm_num) (by norm_num)
    (by norm_num) (by norm_num)).1
  norm_num at h
  exact h

end ExtraTypes
